import Mathlib

/-!
Verification of the AstroBox plugin-system host against its specification.

The Rust sources are shallowly embedded: pure functions become Lean
functions, stateful operations become explicit state passing, fallible
operations return `Except`/`Option`, and external collaborators (the
consent front-end, the filesystem, the WASM engine and the guest's
`on_load` export) are modelled as explicit input parameters describing
their outcome.
-/

namespace PS

/-! ## Permission gate (src/api/host/permission.rs) -/

/-- `normalize_permission_name` from permission.rs: trim then ASCII-lowercase. -/
def normalize_permission_name (name : String) : String :=
  name.trim.toLower

/-- `is_permission_declared` from permission.rs: normalize the required name,
an empty normalized name is never declared, otherwise test membership in the
raw (un-normalized) declared permission list. -/
def is_permission_declared (permissions : List String) (required : String) : Bool :=
  let r := normalize_permission_name required
  if r.isEmpty then false
  else permissions.any (fun perm => perm == r)

/-- Outcome of the consent round-trip to the front-end
(`request_permission`): either a transport error or a boolean grant. -/
def ConsentResult := Except Unit Bool

/-- `check_permission` from permission.rs: a transport error is folded
into deny (`false`). -/
def check_permission (consent : Except Unit Bool) : Bool :=
  match consent with
  | .ok granted => granted
  | .error _ => false

/-- `check_permission_declared` from permission.rs. Returns
`(granted, consentInvoked)`: if the operation is not declared the result is
an immediate deny and the consent collaborator is never consulted;
otherwise the consent round-trip (its outcome passed in as `consent`)
decides, with errors folded into deny by `check_permission`. -/
def check_permission_declared (permissions : List String) (operation : String)
    (consent : Except Unit Bool) : Bool × Bool :=
  if !(is_permission_declared permissions operation) then
    (false, false)
  else
    (check_permission consent, true)

/-! ## Per-plugin register state (src/plugin.rs) -/

structure TransportRecvFiler where
  xiaomi_vela_v5_channel_id : Option Nat
  xiaomi_vela_v5_protobuf_typeid : Option Nat
deriving DecidableEq, Repr

structure TransportRecvRegistration where
  addr : String
  filter : TransportRecvFiler
deriving DecidableEq, Repr

structure InterconnectRecvRegistration where
  addr : String
  pkg_name : String
deriving DecidableEq, Repr

inductive ProviderType where
  | url
  | custom
deriving DecidableEq, Repr

structure ProviderRegistration where
  name : String
  provider_type : ProviderType
deriving DecidableEq, Repr

inductive CardType where
  | element
  | text
deriving DecidableEq, Repr

structure CardRegistration where
  card_type : CardType
  id : String
  name : String
deriving DecidableEq, Repr

/-- `PluginRegisterState` from plugin.rs: append-only registration lists
plus the single-owner deep-link claim flag. -/
structure PluginRegisterState where
  transport_recv : List TransportRecvRegistration
  interconnect_recv : List InterconnectRecvRegistration
  providers : List ProviderRegistration
  cards : List CardRegistration
  deeplink_registered : Bool
deriving DecidableEq, Repr

def PluginRegisterState.initial : PluginRegisterState :=
  { transport_recv := []
    interconnect_recv := []
    providers := []
    cards := []
    deeplink_registered := false }

/-- `PluginRegisterState::try_register_deeplink` from plugin.rs:
compare-and-set on the claim flag; returns the new state and whether the
claim was won. -/
def PluginRegisterState.try_register_deeplink (st : PluginRegisterState) :
    PluginRegisterState × Bool :=
  if st.deeplink_registered then (st, false)
  else ({ st with deeplink_registered := true }, true)

/-! ## Register host operations (src/api/host/register.rs)

Each operation resolves the guest-visible future to
`Result<Result<(), ()>, Error>`: the outer `Except Unit` is the host
error channel (a consent-transport error propagates through `?`), the
inner `Except Unit Unit` is the guest-visible permitted / not-permitted
result. register.rs calls its own raw `request_permission` round-trip;
its outcome is the `consent` parameter. -/

def RegisterResult := Except Unit (Except Unit Unit)

def register_transport_recv (st : PluginRegisterState)
    (consent : Except Unit Bool) (addr : String) (filter : TransportRecvFiler) :
    PluginRegisterState × Except Unit (Except Unit Unit) :=
  match consent with
  | .error e => (st, .error e)
  | .ok false => (st, .ok (.error ()))
  | .ok true =>
    ({ st with transport_recv := st.transport_recv ++ [⟨addr, filter⟩] },
     .ok (.ok ()))

def register_interconnect_recv (st : PluginRegisterState)
    (consent : Except Unit Bool) (addr pkg_name : String) :
    PluginRegisterState × Except Unit (Except Unit Unit) :=
  match consent with
  | .error e => (st, .error e)
  | .ok false => (st, .ok (.error ()))
  | .ok true =>
    ({ st with interconnect_recv := st.interconnect_recv ++ [⟨addr, pkg_name⟩] },
     .ok (.ok ()))

def register_deeplink_action (st : PluginRegisterState)
    (consent : Except Unit Bool) :
    PluginRegisterState × Except Unit (Except Unit Unit) :=
  match consent with
  | .error e => (st, .error e)
  | .ok false => (st, .ok (.error ()))
  | .ok true =>
    let (st', won) := st.try_register_deeplink
    if won then (st', .ok (.ok ())) else (st', .ok (.error ()))

def register_provider (st : PluginRegisterState)
    (consent : Except Unit Bool) (name : String) (provider_type : ProviderType) :
    PluginRegisterState × Except Unit (Except Unit Unit) :=
  match consent with
  | .error e => (st, .error e)
  | .ok false => (st, .ok (.error ()))
  | .ok true =>
    ({ st with providers := st.providers ++ [⟨name, provider_type⟩] },
     .ok (.ok ()))

def register_card (st : PluginRegisterState)
    (consent : Except Unit Bool) (card_type : CardType) (id name : String) :
    PluginRegisterState × Except Unit (Except Unit Unit) :=
  match consent with
  | .error e => (st, .error e)
  | .ok false => (st, .ok (.error ()))
  | .ok true =>
    ({ st with cards := st.cards ++ [⟨card_type, id, name⟩] },
     .ok (.ok ()))

/-! ## Precompiled component cache (src/plugin.rs) -/

/-- `PrecompiledRecord` from plugin.rs: SHA-256 hex digest of the source
wasm bytes, and the engine compatibility-fingerprint hash. -/
structure PrecompiledRecord where
  wasm_sha256 : String
  engine_hash : Nat
deriving DecidableEq, Repr

/-- `PrecompiledIndex` from plugin.rs: map from plugin name to its cached
record, embedded as an association list with the key-replacing insert of
`HashMap::insert`. -/
structure PrecompiledIndex where
  entries : List (String × PrecompiledRecord)
deriving DecidableEq, Repr

def PrecompiledIndex.default : PrecompiledIndex := ⟨[]⟩

def PrecompiledIndex.get (idx : PrecompiledIndex) (key : String) :
    Option PrecompiledRecord :=
  (idx.entries.find? (fun kv => kv.1 == key)).map Prod.snd

def PrecompiledIndex.insert (idx : PrecompiledIndex) (key : String)
    (rec : PrecompiledRecord) : PrecompiledIndex :=
  ⟨(key, rec) :: idx.entries.filter (fun kv => !(kv.1 == key))⟩

/-- The on-disk condition of the sidecar index file, as seen by
`PrecompiledIndex::load`: missing, present but unparseable JSON, or
present and parseable to some index. -/
inductive IndexFile where
  | absent
  | corrupt
  | valid (idx : PrecompiledIndex)

/-- `PrecompiledIndex::load` from plugin.rs: a missing file yields the
default (empty) index, an unparseable file is logged and replaced by the
default index instead of failing, a parseable file yields its contents. -/
def PrecompiledIndex.load (file : IndexFile) : PrecompiledIndex :=
  match file with
  | .absent => PrecompiledIndex.default
  | .corrupt => PrecompiledIndex.default
  | .valid idx => idx

/-- The recompilation condition of `ensure_precompiled_component` from
plugin.rs: recompile when the index has no entry for the key, or the
entry's wasm hash or engine hash differs, or the artifact path is not a
file. -/
def needs_recompile (idx : PrecompiledIndex) (key wasm_hash : String)
    (engine_hash : Nat) (artifact_is_file : Bool) : Bool :=
  (match idx.get key with
   | some cached =>
     !(cached.wasm_sha256 == wasm_hash) || !(cached.engine_hash == engine_hash)
   | none => true)
  || !artifact_is_file

/-- `ensure_precompiled_component` from plugin.rs, abstracted over the
externally computed inputs (the SHA-256 of the current wasm bytes, the
engine-configuration hash, and whether the artifact file exists). Returns
whether a recompilation was performed together with the resulting index:
on recompilation the new artifact is written and the index entry for the
plugin name is replaced by the fresh pair of hashes and saved; otherwise
the cached artifact is deserialized and the index is untouched. -/
def ensure_precompiled_component (file : IndexFile) (key wasm_hash : String)
    (engine_hash : Nat) (artifact_is_file : Bool) :
    Bool × PrecompiledIndex :=
  let idx := PrecompiledIndex.load file
  if needs_recompile idx key wasm_hash engine_hash artifact_is_file then
    (true, idx.insert key ⟨wasm_hash, engine_hash⟩)
  else
    (false, idx)

/-! ## Plugin lifecycle state and the manager (src/plugin.rs, src/manager.rs) -/

/-- `PluginState` from plugin.rs; `Default` gives
`{disabled := false, loaded := false}`. -/
structure PluginState where
  disabled : Bool
  loaded : Bool
deriving DecidableEq, Repr

def PluginState.default : PluginState := ⟨false, false⟩

/-- A `Plugin` as the manager tracks it. The outcome of
`Plugin::run` (component instantiation plus the guest `on_load` export)
is external guest behaviour, embedded as the `run_ok` flag. -/
structure Plugin where
  state : PluginState
  run_ok : Bool
deriving DecidableEq, Repr

/-- The manager's `plugins: HashMap<String, Plugin>` embedded as an
association list with at most one binding per key. -/
def PluginMap := List (String × Plugin)

def PluginMap.lookup (m : PluginMap) (name : String) : Option Plugin :=
  (List.find? (fun kv => kv.1 == name) m).map Prod.snd

/-- `HashMap::insert`: replace any existing binding for the key. -/
def PluginMap.insert (m : PluginMap) (name : String) (p : Plugin) : PluginMap :=
  (name, p) :: List.filter (fun kv => !(kv.1 == name)) m

/-- `HashMap::remove`. -/
def PluginMap.erase (m : PluginMap) (name : String) : PluginMap :=
  List.filter (fun kv => !(kv.1 == name)) m

def PluginMap.keys (m : PluginMap) : List String :=
  List.map Prod.fst m

/-- Number of entries of the map bound to `name`. -/
def PluginMap.countKey (m : PluginMap) (name : String) : Nat :=
  List.length (List.filter (fun kv => kv.1 == name) m)

/-- `PluginManager::add` from manager.rs for a directory whose manifest
loads and whose runtime initialises: the plugin is inserted under its
manifest name with the default lifecycle state. -/
def PluginMap.add (m : PluginMap) (name : String) (run_ok : Bool) : PluginMap :=
  m.insert name ⟨PluginState.default, run_ok⟩

/-- `PluginManager::start_plugin` from manager.rs. Unknown name: error,
map untouched. Disabled or already loaded: Ok, map untouched. Otherwise
`Plugin::run`: on success the state becomes `{loaded := true,
disabled := false}`; on failure the entry is removed from the map and the
error is returned. -/
def PluginMap.start_plugin (m : PluginMap) (name : String) :
    PluginMap × Except String Unit :=
  match m.lookup name with
  | none => (m, .error ("Plugin '" ++ name ++ "' not found"))
  | some plugin =>
    if plugin.state.disabled then (m, .ok ())
    else if plugin.state.loaded then (m, .ok ())
    else if plugin.run_ok then
      (m.insert name { plugin with state := ⟨false, true⟩ }, .ok ())
    else
      (m.erase name,
       .error ("plugin '" ++ name ++ "' on_load failed. detail: trap"))

/-- `PluginManager::start_all` from manager.rs: collect the keys, sort
them, start each in order, collecting the error strings. -/
def PluginMap.startFold (m : PluginMap) (names : List String) :
    PluginMap × List String :=
  names.foldl
    (fun acc n =>
      match acc.1.start_plugin n with
      | (m', .ok _) => (m', acc.2)
      | (m', .error e) => (m', acc.2 ++ [e]))
    (m, [])

def sortNames (names : List String) : List String :=
  List.insertionSort (fun a b => a ≤ b) names

def PluginMap.start_all (m : PluginMap) : PluginMap × List String :=
  m.startFold (sortNames m.keys)

/-- One plugin subdirectory as `load_from_dir` sees it: either its
manifest fails to load (`bad`, carrying the directory label and the error
detail), or `add` succeeds producing a plugin named `name` whose later
`Plugin::run` outcome is `run_ok`. -/
inductive DirEntry where
  | bad (label : String) (err : String)
  | good (name : String) (run_ok : Bool)

/-- The error string `load_from_dir` pushes for a directory whose `add`
failed. -/
def loadErrMsg (label err : String) : String :=
  "Failed to load plugin from " ++ label ++ ": " ++ err

/-- The `add` loop of `load_from_dir`: each failing directory contributes
exactly one error string and does not abort the remaining adds. -/
def addAll (m : PluginMap) (dirs : List DirEntry) : PluginMap × List String :=
  dirs.foldl
    (fun acc d =>
      match d with
      | .bad label err => (acc.1, acc.2 ++ [loadErrMsg label err])
      | .good name run_ok => (acc.1.add name run_ok, acc.2))
    (m, [])

/-- The persisted-disabled-map pass of `load_from_dir`: plugins marked
disabled in the stored map get `disabled := true`. -/
def applyDisabled (dm : String → Bool) (m : PluginMap) : PluginMap :=
  m.map (fun kv =>
    if dm kv.1 then
      (kv.1, { kv.2 with state := { kv.2.state with disabled := true } })
    else kv)

/-- `PluginManager::load_from_dir` from manager.rs, starting from a given
map: add every subdirectory (collecting manifest errors), apply the
persisted disabled map, then start all plugins in sorted-name order,
appending each start error to the same list. -/
def load_from_dir (m : PluginMap) (dirs : List DirEntry) (dm : String → Bool) :
    PluginMap × List String :=
  let (m1, addErrs) := addAll m dirs
  let m2 := applyDisabled dm m1
  let (m3, startErrs) := m2.start_all
  (m3, addErrs ++ startErrs)

/-- Manager state for the operations that also track the `updated` flag. -/
structure ManagerState where
  plugins : PluginMap
  updated : Bool

/-- `PluginManager::add_from_abp` from manager.rs: set `updated`, read and
extract the bundle archive into the destination directory (the archive
I/O outcome is the `extract` parameter). The subsequent
`add` / `set_plugin_disabled_persisted` / `start_plugin` calls are
commented out in the source, so the plugin map is never touched. -/
def add_from_abp (mgr : ManagerState) (extract : Except Unit Unit) :
    ManagerState × Except Unit Unit :=
  let mgr := { mgr with updated := true }
  match extract with
  | .error e => (mgr, .error e)
  | .ok _ => (mgr, .ok ())

/-- `PluginManager::remove` from manager.rs: a missing name returns
`false` with the map untouched; otherwise the entry is removed from the
map first, the precompiled artifacts are purged (failures only logged),
and the return value is the success of deleting the plugin directory
(`rmdir_ok`) — `false` from a failed directory deletion still leaves the
entry removed from the map. -/
def PluginMap.remove (m : PluginMap) (name : String) (rmdir_ok : Bool) :
    PluginMap × Bool :=
  match m.lookup name with
  | none => (m, false)
  | some _ => (m.erase name, rmdir_ok)

/-! ## UI resource table and element builder (src/api/host/ui.rs) -/

inductive ElementType where
  | button | image | video | audio | svg | div | span | p
deriving DecidableEq, Repr

inductive UiEvent where
  | click | hover | change | pointerDown | pointerUp | pointerMove
deriving DecidableEq, Repr

structure EventListener where
  id : String
  event : UiEvent
deriving DecidableEq, Repr

/-- `Element` from ui.rs. The style `HashMap` is embedded as an
association list with replacing insert. -/
inductive Element where
  | mk (id : String) (etype : ElementType) (content : Option String)
       (listeners : List EventListener) (styles : List (String × String))
       (width : Option Nat) (height : Option Nat)
       (children : Option (List Element))

def Element.content : Element → Option String
  | .mk _ _ c _ _ _ _ _ => c

def Element.styles : Element → List (String × String)
  | .mk _ _ _ _ ss _ _ _ => ss

def Element.children : Element → Option (List Element)
  | .mk _ _ _ _ _ _ _ ch => ch

def Element.elemId : Element → String
  | .mk i _ _ _ _ _ _ _ => i

/-- `Element::new` from ui.rs: fresh identifier (randomly generated in the
source, passed in here), empty styles, no size, no children, no
listeners. -/
def Element.new (id : String) (etype : ElementType) (content : Option String) :
    Element :=
  .mk id etype content [] [] none none none

def Element.setContent : Element → Option String → Element
  | .mk i t _ ls ss w h ch, c => .mk i t c ls ss w h ch

def styleInsert (ss : List (String × String)) (k v : String) :
    List (String × String) :=
  (k, v) :: ss.filter (fun kv => !(kv.1 == k))

def Element.withStyle : Element → String → String → Element
  | .mk i t c ls ss w h ch, k, v => .mk i t c ls (styleInsert ss k v) w h ch

def Element.appendChild : Element → Element → Element
  | .mk i t c ls ss w h none, childEl => .mk i t c ls ss w h (some [childEl])
  | .mk i t c ls ss w h (some cs), childEl => .mk i t c ls ss w h (some (cs ++ [childEl]))

/-- The wasmtime `ResourceTable` holding the per-plugin UI elements,
embedded as an association list from handle indices to elements plus the
next fresh index. -/
structure UiCtx where
  table : List (Nat × Element)
  next : Nat

def UiCtx.empty : UiCtx := ⟨[], 0⟩

def tlookup (c : UiCtx) (h : Nat) : Option Element :=
  (c.table.find? (fun kv => kv.1 == h)).map Prod.snd

def eraseKeyFirst : List (Nat × Element) → Nat → List (Nat × Element)
  | [], _ => []
  | kv :: rest, h => if kv.1 == h then rest else kv :: eraseKeyFirst rest h

def updateKeyFirst : List (Nat × Element) → Nat → (Element → Element) →
    List (Nat × Element)
  | [], _, _ => []
  | kv :: rest, h, f =>
    if kv.1 == h then (kv.1, f kv.2) :: rest
    else kv :: updateKeyFirst rest h f

/-- `ResourceTable::push`: allocate a fresh handle for the element. -/
def tpush (c : UiCtx) (e : Element) : UiCtx × Nat :=
  (⟨c.table ++ [(c.next, e)], c.next + 1⟩, c.next)

/-- `ResourceTable::delete`: remove the entry for the handle and return
it; an unknown handle is an error. -/
def tdelete (c : UiCtx) (h : Nat) : Option (UiCtx × Element) :=
  match tlookup c h with
  | none => none
  | some e => some (⟨eraseKeyFirst c.table h, c.next⟩, e)

/-- `ResourceTable::get_mut` followed by a field update; an unknown
handle is an error. -/
def tupdate (c : UiCtx) (h : Nat) (f : Element → Element) : Option UiCtx :=
  match tlookup c h with
  | none => none
  | some _ => some ⟨updateKeyFirst c.table h f, c.next⟩

/-- `HostElement::new` from ui.rs: push a fresh element, return its
handle. -/
def elem_new (c : UiCtx) (id : String) (etype : ElementType)
    (content : Option String) : UiCtx × Nat :=
  tpush c (Element.new id etype content)

/-- `HostElement::content` from ui.rs: `get_mut` the entry, overwrite its
content in place, return the same handle. -/
def elem_content (c : UiCtx) (h : Nat) (content : Option String) :
    Option (UiCtx × Nat) :=
  (tupdate c h (fun el => el.setContent content)).map (fun c' => (c', h))

/-- `HostElement::flex` from ui.rs: `get_mut` the entry, insert
`display: flex` into its style map in place, return the same handle. -/
def elem_flex (c : UiCtx) (h : Nat) : Option (UiCtx × Nat) :=
  (tupdate c h (fun el => el.withStyle "display" "flex")).map (fun c' => (c', h))

/-- `HostElement::child` from ui.rs: delete the child's entry from the
table, append the moved element to the parent's child list, return the
parent handle. -/
def elem_child (c : UiCtx) (parent child : Nat) : Option (UiCtx × Nat) :=
  match tdelete c child with
  | none => none
  | some (c1, childEl) =>
    (tupdate c1 parent (fun el => el.appendChild childEl)).map
      (fun c2 => (c2, parent))

/-- `ui2::Host::render` from ui.rs: delete the root's entry from the
table (the serialized form is handed to the presentation collaborator). -/
def ui_render (c : UiCtx) (h : Nat) : Option UiCtx :=
  (tdelete c h).map Prod.fst

/-- `HostElement::drop` from ui.rs: delete the entry from the table. -/
def elem_drop (c : UiCtx) (h : Nat) : Option UiCtx :=
  (tdelete c h).map Prod.fst

/-- One guest-visible UI builder call, for reasoning about arbitrary
construction sequences. -/
inductive UiOp where
  | newElem (id : String) (etype : ElementType) (content : Option String)
  | setContent (h : Nat) (content : Option String)
  | flex (h : Nat)
  | child (parent ch : Nat)
  | render (h : Nat)
  | dropHandle (h : Nat)

def stepOp (c : UiCtx) (op : UiOp) : Option UiCtx :=
  match op with
  | .newElem id etype content => some (elem_new c id etype content).1
  | .setContent h content => (elem_content c h content).map Prod.fst
  | .flex h => (elem_flex c h).map Prod.fst
  | .child p ch => (elem_child c p ch).map Prod.fst
  | .render h => ui_render c h
  | .dropHandle h => elem_drop c h

def runOps (c : UiCtx) : List UiOp → Option UiCtx
  | [] => some c
  | op :: rest =>
    match stepOp c op with
    | none => none
    | some c' => runOps c' rest

/-- Number of table-entry allocations in a builder sequence (element
creations). -/
def opAlloc : UiOp → Nat
  | .newElem _ _ _ => 1
  | _ => 0

/-- Number of table entries released by one builder call (a composition
into a parent, a render, or a drop). -/
def opConsume : UiOp → Nat
  | .child _ _ => 1
  | .render _ => 1
  | .dropHandle _ => 1
  | _ => 0

def allocs : List UiOp → Nat
  | [] => 0
  | op :: rest => allocs rest + opAlloc op

/-- Number of table-entry releases in a builder sequence (compositions
into a parent, renders, and drops). -/
def consumes : List UiOp → Nat
  | [] => 0
  | op :: rest => consumes rest + opConsume op

/-! ## Association-list helper lemmas -/

theorem find?_filter_other {α β : Type} [BEq β] [LawfulBEq β]
    (l : List (β × α)) (k k' : β) (hne : (k' == k) = false) :
    List.find? (fun kv => kv.1 == k') (l.filter (fun kv => !(kv.1 == k))) =
      List.find? (fun kv => kv.1 == k') l := by
  induction l with
  | nil => rfl
  | cons kv rest ih =>
    by_cases hk : (kv.1 == k) = true
    · have hkk : kv.1 = k := eq_of_beq hk
      have hk' : (kv.1 == k') = false := by
        cases h : (kv.1 == k') with
        | true =>
          have : kv.1 = k' := eq_of_beq h
          rw [hkk] at this
          rw [← this] at hne
          simp at hne
        | false => rfl
      simp [List.filter_cons, hk, List.find?_cons, hk', ih]
    · have hk2 : (kv.1 == k) = false := by
        cases h : (kv.1 == k) with
        | true => exact absurd h hk
        | false => rfl
      by_cases hkv : (kv.1 == k') = true
      · simp [List.filter_cons, hk2, List.find?_cons, hkv]
      · have hkv2 : (kv.1 == k') = false := by
          cases h : (kv.1 == k') with
          | true => exact absurd h hkv
          | false => rfl
        simp [List.filter_cons, hk2, List.find?_cons, hkv2, ih]

theorem find?_filter_self_none {α β : Type} [BEq β] (l : List (β × α)) (k : β) :
    List.find? (fun kv => kv.1 == k) (l.filter (fun kv => !(kv.1 == k))) = none := by
  apply List.find?_eq_none.mpr
  intro kv hmem
  have := (List.mem_filter.mp hmem).2
  simp at this
  simp [this]

theorem PluginMap.lookup_insert_self (m : PluginMap) (k : String) (p : Plugin) :
    (m.insert k p).lookup k = some p := by
  simp [PluginMap.insert, PluginMap.lookup, List.find?_cons]

theorem PluginMap.lookup_insert_other (m : PluginMap) (k k' : String) (p : Plugin)
    (hne : k' ≠ k) :
    (m.insert k p).lookup k' = m.lookup k' := by
  have hb : (k == k') = false := by simp [Ne.symm hne]
  have hb2 : (k' == k) = false := by simp [hne]
  simp only [PluginMap.insert, PluginMap.lookup, List.find?_cons, hb]
  rw [find?_filter_other _ _ _ hb2]

theorem PluginMap.lookup_erase_self (m : PluginMap) (k : String) :
    (m.erase k).lookup k = none := by
  simp only [PluginMap.erase, PluginMap.lookup]
  rw [find?_filter_self_none]
  rfl

theorem PluginMap.lookup_erase_other (m : PluginMap) (k k' : String)
    (hne : k' ≠ k) :
    (m.erase k).lookup k' = m.lookup k' := by
  have hb2 : (k' == k) = false := by simp [hne]
  simp only [PluginMap.erase, PluginMap.lookup]
  rw [find?_filter_other _ _ _ hb2]

theorem PluginMap.countKey_insert_self (m : PluginMap) (k : String) (p : Plugin) :
    (m.insert k p).countKey k = 1 := by
  simp only [PluginMap.insert, PluginMap.countKey, List.filter_cons]
  simp only [beq_self_eq_true, if_pos]
  have : List.filter (fun kv => kv.1 == k)
      (List.filter (fun kv => !(kv.1 == k)) m) = [] := by
    apply List.filter_eq_nil_iff.mpr
    intro kv hmem
    have := (List.mem_filter.mp hmem).2
    simp at this
    simp [this]
  simp [this]

theorem PluginMap.countKey_erase_self (m : PluginMap) (k : String) :
    (m.erase k).countKey k = 0 := by
  simp only [PluginMap.erase, PluginMap.countKey]
  have : List.filter (fun kv => kv.1 == k)
      (List.filter (fun kv => !(kv.1 == k)) m) = [] := by
    apply List.filter_eq_nil_iff.mpr
    intro kv hmem
    have := (List.mem_filter.mp hmem).2
    simp at this
    simp [this]
  simp [this]

/-! ## Claim theorems -/

/-- C2: the two-phase permission check is fail-closed. An operation whose
trimmed and lowercased name is not contained in the plugin's declared
permission list is denied without ever invoking the consent collaborator,
and for any operation whose consent round-trip returns a transport error
the result is also deny, never allow. -/
theorem permission_fail_closed (permissions : List String) (operation : String) :
    (normalize_permission_name operation ∉ permissions →
      ∀ consent : Except Unit Bool,
        check_permission_declared permissions operation consent = (false, false)) ∧
    (∀ e : Unit,
      (check_permission_declared permissions operation (.error e)).1 = false) := by
  constructor
  · intro hmem consent
    have hdecl : is_permission_declared permissions operation = false := by
      simp only [is_permission_declared]
      split
      · rfl
      · rw [Bool.eq_false_iff]
        intro hany
        obtain ⟨x, hx, hxr⟩ := List.any_eq_true.mp hany
        exact hmem (by rwa [eq_of_beq hxr] at hx)
    simp [check_permission_declared, hdecl]
  · intro e
    simp only [check_permission_declared]
    split
    · rfl
    · rfl

/-- C2 witness: the theorem applied at a concrete undeclared operation and
at a concrete errored consent round-trip. -/
theorem permission_fail_closed_witness :
    check_permission_declared [] " Transport" (.ok true) = (false, false) ∧
    (check_permission_declared ["transport"] " Transport" (.error ())).1 = false :=
  ⟨(permission_fail_closed [] " Transport").1 (List.not_mem_nil _) (.ok true),
   (permission_fail_closed ["transport"] " Transport").2 ()⟩

/-- C3 counterexample: the register operations never consult the
manifest-declared permission list (register.rs calls its raw
`request_permission` consent round-trip only). With an empty permission
list — under which the static declaration check denies
`register_transport_recv` — a granted consent still appends the
registration and returns success, and a consent transport error
propagates as a host error rather than as the not-permitted result. -/
theorem register_skips_declaration_check_cex :
    is_permission_declared [] "register_transport_recv" = false ∧
    (register_transport_recv PluginRegisterState.initial (.ok true) "00:11"
        ⟨some 1, some 2⟩).2 = .ok (.ok ()) ∧
    (register_transport_recv PluginRegisterState.initial (.ok true) "00:11"
        ⟨some 1, some 2⟩).1.transport_recv = [⟨"00:11", ⟨some 1, some 2⟩⟩] ∧
    (register_transport_recv PluginRegisterState.initial (.error ()) "00:11"
        ⟨some 1, some 2⟩).2 = .error () := by
  refine ⟨?_, rfl, rfl, rfl⟩
  simp only [is_permission_declared]
  split <;> rfl

/-- C3 amended: every register host operation performs only the consent
round-trip (there is no manifest-declaration phase) before appending to
the plugin's register state; a consent denial returns the not-permitted
result with the register state unchanged, a granted consent appends the
registration, and a transport error in the round-trip propagates to the
host as an error rather than a not-permitted result, with the state
unchanged. -/
theorem register_ops_consent_only (st : PluginRegisterState)
    (addr pkg name id : String) (filter : TransportRecvFiler)
    (pt : ProviderType) (ct : CardType) (e : Unit) :
    (register_transport_recv st (.ok false) addr filter = (st, .ok (.error ())) ∧
     register_transport_recv st (.error e) addr filter = (st, .error e) ∧
     register_transport_recv st (.ok true) addr filter =
       ({ st with transport_recv := st.transport_recv ++ [⟨addr, filter⟩] },
        .ok (.ok ()))) ∧
    (register_interconnect_recv st (.ok false) addr pkg = (st, .ok (.error ())) ∧
     register_interconnect_recv st (.error e) addr pkg = (st, .error e) ∧
     register_interconnect_recv st (.ok true) addr pkg =
       ({ st with interconnect_recv := st.interconnect_recv ++ [⟨addr, pkg⟩] },
        .ok (.ok ()))) ∧
    (register_provider st (.ok false) name pt = (st, .ok (.error ())) ∧
     register_provider st (.error e) name pt = (st, .error e) ∧
     register_provider st (.ok true) name pt =
       ({ st with providers := st.providers ++ [⟨name, pt⟩] }, .ok (.ok ()))) ∧
    (register_card st (.ok false) ct id name = (st, .ok (.error ())) ∧
     register_card st (.error e) ct id name = (st, .error e) ∧
     register_card st (.ok true) ct id name =
       ({ st with cards := st.cards ++ [⟨ct, id, name⟩] }, .ok (.ok ()))) ∧
    (register_deeplink_action st (.ok false) = (st, .ok (.error ())) ∧
     register_deeplink_action st (.error e) = (st, .error e) ∧
     register_deeplink_action st (.ok true) =
       (if st.deeplink_registered then (st, .ok (.error ()))
        else ({ st with deeplink_registered := true }, .ok (.ok ())))) := by
  refine ⟨⟨rfl, rfl, rfl⟩, ⟨rfl, rfl, rfl⟩, ⟨rfl, rfl, rfl⟩, ⟨rfl, rfl, rfl⟩,
    rfl, rfl, ?_⟩
  by_cases h : st.deeplink_registered <;>
    simp [register_deeplink_action, PluginRegisterState.try_register_deeplink, h]

/-- C4 counterexample: the first deep-link registration attempt succeeds
and sets the claim flag, and the second attempt fails — but its
guest-visible result is exactly the `Err(())` a permission denial
produces, so it is not distinguishable from a permission denial. -/
theorem deeplink_denial_indistinguishable_cex :
    (register_deeplink_action PluginRegisterState.initial (.ok true)).2 =
      .ok (.ok ()) ∧
    (register_deeplink_action PluginRegisterState.initial
        (.ok true)).1.deeplink_registered = true ∧
    (register_deeplink_action
        { PluginRegisterState.initial with deeplink_registered := true }
        (.ok true)).2 = .ok (.error ()) ∧
    (register_deeplink_action
        { PluginRegisterState.initial with deeplink_registered := true }
        (.ok true)).2 =
      (register_deeplink_action PluginRegisterState.initial (.ok false)).2 :=
  ⟨rfl, rfl, rfl, rfl⟩

/-- C4 amended: the deep-link claim is single-owner compare-and-set — the
first successful attempt returns success and permanently sets the claim
flag, and every subsequent attempt fails — but the failure result is the
same not-permitted `Err(())` value a permission denial produces, not a
distinct "already claimed" result. -/
theorem deeplink_single_owner_cas (st : PluginRegisterState) :
    (st.deeplink_registered = false →
      register_deeplink_action st (.ok true) =
        ({ st with deeplink_registered := true }, .ok (.ok ()))) ∧
    (st.deeplink_registered = true →
      ∀ granted : Bool,
        register_deeplink_action st (.ok granted) = (st, .ok (.error ()))) ∧
    (∀ consent : Except Unit Bool, st.deeplink_registered = true →
      ((register_deeplink_action st consent).1).deeplink_registered = true) ∧
    (register_deeplink_action st (.ok false)).2 = .ok (.error ()) := by
  refine ⟨?_, ?_, ?_, rfl⟩
  · intro h
    simp [register_deeplink_action, PluginRegisterState.try_register_deeplink, h]
  · intro h granted
    cases granted <;>
      simp [register_deeplink_action, PluginRegisterState.try_register_deeplink, h]
  · intro consent h
    match consent with
    | .error e => simpa [register_deeplink_action] using h
    | .ok false => simpa [register_deeplink_action] using h
    | .ok true =>
      simp [register_deeplink_action, PluginRegisterState.try_register_deeplink, h]

/-- C4 witness: the amended theorem applied at the initial state (first
attempt) and at the already-claimed state (second attempt). -/
theorem deeplink_single_owner_cas_witness :
    register_deeplink_action PluginRegisterState.initial (.ok true) =
      ({ PluginRegisterState.initial with deeplink_registered := true },
       .ok (.ok ())) ∧
    register_deeplink_action
        { PluginRegisterState.initial with deeplink_registered := true }
        (.ok true) =
      ({ PluginRegisterState.initial with deeplink_registered := true },
       .ok (.error ())) :=
  ⟨(deeplink_single_owner_cas PluginRegisterState.initial).1 rfl,
   (deeplink_single_owner_cas
     { PluginRegisterState.initial with deeplink_registered := true }).2.1 rfl true⟩

/-- C7 counterexample: a successful `add_from_abp` does not leave the
extracted plugin in the manager's map (the `add` and `start_plugin` calls
are commented out in manager.rs), so the plugin is neither present nor
started after the call returns Ok. -/
theorem add_from_abp_no_start_cex :
    (add_from_abp ⟨[], false⟩ (.ok ())).2 = .ok () ∧
    PluginMap.lookup (add_from_abp ⟨[], false⟩ (.ok ())).1.plugins "newplugin" =
      none :=
  ⟨rfl, rfl⟩

/-- C7 amended: `add_from_abp` extracts the bundle archive into the
destination plugin directory and sets the manager's `updated` flag, but
performs neither `add` nor `start_plugin` (those calls are commented
out): the plugin map is unchanged and the call's result is exactly the
extraction outcome. -/
theorem add_from_abp_extract_only (mgr : ManagerState)
    (extract : Except Unit Unit) :
    (add_from_abp mgr extract).1.plugins = mgr.plugins ∧
    (add_from_abp mgr extract).1.updated = true ∧
    (add_from_abp mgr extract).2 = extract := by
  refine ⟨?_, ?_, ?_⟩ <;> cases extract <;> rfl

/-- C10: `remove` returns false and leaves the plugin map unchanged for an
unknown name; for a present name the entry is erased from the in-memory
map unconditionally, even when the subsequent plugin-directory deletion
fails and the call returns false. -/
theorem remove_unconditional_map_erase (m : PluginMap) (name : String)
    (rmdir_ok : Bool) :
    (m.lookup name = none → m.remove name rmdir_ok = (m, false)) ∧
    (∀ p : Plugin, m.lookup name = some p →
      (m.remove name rmdir_ok).1 = m.erase name ∧
      ((m.remove name rmdir_ok).1).lookup name = none ∧
      (m.remove name rmdir_ok).2 = rmdir_ok) := by
  constructor
  · intro h
    simp [PluginMap.remove, h]
  · intro p hp
    refine ⟨?_, ?_, ?_⟩ <;>
      simp [PluginMap.remove, hp, PluginMap.lookup_erase_self]

/-- C10 witness: removing the only plugin with a failing directory
deletion still erases the map entry while returning false. -/
theorem remove_unconditional_map_erase_witness :
    (PluginMap.remove [("a", ⟨⟨false, false⟩, true⟩)] "a" false).1.lookup "a" =
      none ∧
    (PluginMap.remove [("a", ⟨⟨false, false⟩, true⟩)] "a" false).2 = false ∧
    PluginMap.remove [("a", ⟨⟨false, false⟩, true⟩)] "b" true =
      ([("a", ⟨⟨false, false⟩, true⟩)], false) :=
  ⟨((remove_unconditional_map_erase [("a", ⟨⟨false, false⟩, true⟩)] "a" false).2
      ⟨⟨false, false⟩, true⟩ rfl).2.1,
   ((remove_unconditional_map_erase [("a", ⟨⟨false, false⟩, true⟩)] "a" false).2
      ⟨⟨false, false⟩, true⟩ rfl).2.2,
   (remove_unconditional_map_erase [("a", ⟨⟨false, false⟩, true⟩)] "b" true).1
      rfl⟩

theorem PrecompiledIndex.get_insert_self (idx : PrecompiledIndex) (key : String)
    (rec : PrecompiledRecord) : (idx.insert key rec).get key = some rec := by
  simp [PrecompiledIndex.insert, PrecompiledIndex.get, List.find?_cons]

/-- C1: for a plugin added from a valid manifest under a fresh name, `add`
followed by `start_plugin` leaves exactly one entry for that name in
state `{loaded := true, disabled := false}` when the run succeeds, and
removes the entry from the map entirely when instantiation or `on_load`
fails — never a half-initialized entry. -/
theorem add_then_start_no_half_initialized (m : PluginMap) (name : String)
    (run_ok : Bool) (hfresh : m.lookup name = none) :
    (run_ok = true →
      ((m.add name run_ok).start_plugin name).1.countKey name = 1 ∧
      ((m.add name run_ok).start_plugin name).1.lookup name =
        some ⟨⟨false, true⟩, true⟩ ∧
      ((m.add name run_ok).start_plugin name).2 = .ok ()) ∧
    (run_ok = false →
      ((m.add name run_ok).start_plugin name).1.lookup name = none ∧
      ((m.add name run_ok).start_plugin name).1.countKey name = 0 ∧
      ((m.add name run_ok).start_plugin name).2 =
        .error ("plugin '" ++ name ++ "' on_load failed. detail: trap")) := by
  have hlook : (m.add name run_ok).lookup name =
      some ⟨⟨false, false⟩, run_ok⟩ :=
    PluginMap.lookup_insert_self m name _
  constructor
  · intro hr
    subst hr
    simp only [PluginMap.start_plugin, hlook]
    exact ⟨PluginMap.countKey_insert_self _ name _,
           PluginMap.lookup_insert_self _ name _, rfl⟩
  · intro hr
    subst hr
    simp only [PluginMap.start_plugin, hlook]
    exact ⟨PluginMap.lookup_erase_self _ name,
           PluginMap.countKey_erase_self _ name, rfl⟩

/-- C1 witness: the theorem applied at the empty manager, once with a
succeeding run and once with a failing run. -/
theorem add_then_start_no_half_initialized_witness :
    ((PluginMap.add [] "p" true).start_plugin "p").1.lookup "p" =
      some ⟨⟨false, true⟩, true⟩ ∧
    ((PluginMap.add [] "p" false).start_plugin "p").1.lookup "p" = none :=
  ⟨((add_then_start_no_half_initialized [] "p" true rfl).1 rfl).2.1,
   ((add_then_start_no_half_initialized [] "p" false rfl).2 rfl).1⟩

/-- C5: compilation is skipped exactly when the stored index entry for the
plugin name matches both the SHA-256 of the current WASM bytes and the
engine-configuration hash and the artifact file exists; in that case the
index is untouched. Whenever any of the three conditions fails the
component is recompiled and the index entry for the name is replaced by
the fresh pair of hashes; an unparseable (or missing) index file is
replaced by the empty default index instead of failing the load. -/
theorem precompile_cache_skip_iff (file : IndexFile) (key wasm_hash : String)
    (engine_hash : Nat) (artifact_is_file : Bool) :
    ((ensure_precompiled_component file key wasm_hash engine_hash
        artifact_is_file).1 = false ↔
      ((PrecompiledIndex.load file).get key = some ⟨wasm_hash, engine_hash⟩ ∧
        artifact_is_file = true)) ∧
    ((ensure_precompiled_component file key wasm_hash engine_hash
        artifact_is_file).1 = false →
      (ensure_precompiled_component file key wasm_hash engine_hash
        artifact_is_file).2 = PrecompiledIndex.load file) ∧
    ((ensure_precompiled_component file key wasm_hash engine_hash
        artifact_is_file).1 = true →
      (ensure_precompiled_component file key wasm_hash engine_hash
        artifact_is_file).2.get key = some ⟨wasm_hash, engine_hash⟩) ∧
    PrecompiledIndex.load .corrupt = PrecompiledIndex.default ∧
    PrecompiledIndex.load .absent = PrecompiledIndex.default := by
  refine ⟨?_, ?_, ?_, rfl, rfl⟩
  · cases hget : (PrecompiledIndex.load file).get key with
    | none =>
      simp [ensure_precompiled_component, needs_recompile, hget]
    | some cached =>
      obtain ⟨cw, ce⟩ := cached
      by_cases h1 : cw = wasm_hash <;> by_cases h2 : ce = engine_hash <;>
        cases artifact_is_file <;>
          simp [ensure_precompiled_component, needs_recompile, hget, h1, h2]
  · intro hskip
    simp only [ensure_precompiled_component] at hskip ⊢
    split at hskip
    · exact absurd hskip (by simp)
    · simp_all
  · intro hrec
    simp only [ensure_precompiled_component] at hrec ⊢
    split at hrec
    · simp_all [PrecompiledIndex.get_insert_self]
    · exact absurd hrec (by simp)

/-- C5 witness: a matching index entry with an existing artifact skips
recompilation, and a missing index forces recompilation which records the
fresh hashes. -/
theorem precompile_cache_skip_iff_witness :
    (ensure_precompiled_component (.valid ⟨[("k", ⟨"h", 5⟩)]⟩) "k" "h" 5
        true).1 = false ∧
    (ensure_precompiled_component .absent "k" "h" 5 true).2.get "k" =
      some ⟨"h", 5⟩ :=
  ⟨(precompile_cache_skip_iff (.valid ⟨[("k", ⟨"h", 5⟩)]⟩) "k" "h" 5
      true).1.mpr ⟨by decide, rfl⟩,
   (precompile_cache_skip_iff .absent "k" "h" 5 true).2.2.1 (by decide)⟩

/-! ## UI table helper lemmas -/

theorem length_updateKeyFirst (l : List (Nat × Element)) (h : Nat)
    (f : Element → Element) : (updateKeyFirst l h f).length = l.length := by
  induction l with
  | nil => rfl
  | cons kv rest ih =>
    by_cases hk : (kv.1 == h) = true
    · simp [updateKeyFirst, hk]
    · simp [updateKeyFirst, hk, ih]

theorem find?_updateKeyFirst_self (l : List (Nat × Element)) (h : Nat)
    (f : Element → Element) :
    List.find? (fun kv => kv.1 == h) (updateKeyFirst l h f) =
      (List.find? (fun kv => kv.1 == h) l).map (fun kv => (kv.1, f kv.2)) := by
  induction l with
  | nil => rfl
  | cons kv rest ih =>
    by_cases hk : (kv.1 == h) = true
    · simp [updateKeyFirst, hk, List.find?_cons]
    · have hk2 : (kv.1 == h) = false := by
        cases hkk : (kv.1 == h) with
        | true => exact absurd hkk hk
        | false => rfl
      simp [updateKeyFirst, hk2, List.find?_cons, ih]

theorem find?_updateKeyFirst_other (l : List (Nat × Element)) (g h : Nat)
    (f : Element → Element) (hne : g ≠ h) :
    List.find? (fun kv => kv.1 == g) (updateKeyFirst l h f) =
      List.find? (fun kv => kv.1 == g) l := by
  induction l with
  | nil => rfl
  | cons kv rest ih =>
    by_cases hk : (kv.1 == h) = true
    · have hkg : (kv.1 == g) = false := by
        have : kv.1 = h := by simpa using hk
        simp [this, Ne.symm hne]
      simp [updateKeyFirst, hk, List.find?_cons, hkg]
    · have hk2 : (kv.1 == h) = false := by
        cases hkk : (kv.1 == h) with
        | true => exact absurd hkk hk
        | false => rfl
      by_cases hkg : (kv.1 == g) = true
      · simp [updateKeyFirst, hk2, List.find?_cons, hkg]
      · have hkg2 : (kv.1 == g) = false := by
          cases hkk : (kv.1 == g) with
          | true => exact absurd hkk hkg
          | false => rfl
        simp [updateKeyFirst, hk2, List.find?_cons, hkg2, ih]

theorem length_eraseKeyFirst (l : List (Nat × Element)) (h : Nat) (kv : Nat × Element)
    (hfind : List.find? (fun kv => kv.1 == h) l = some kv) :
    (eraseKeyFirst l h).length + 1 = l.length := by
  induction l with
  | nil => simp [List.find?] at hfind
  | cons a rest ih =>
    by_cases ha : (a.1 == h) = true
    · simp [eraseKeyFirst, ha]
    · have ha2 : (a.1 == h) = false := by
        cases hkk : (a.1 == h) with
        | true => exact absurd hkk ha
        | false => rfl
      rw [List.find?_cons, ha2] at hfind
      simp [eraseKeyFirst, ha2, ih hfind]

theorem find?_eraseKeyFirst_nodup (l : List (Nat × Element)) (h : Nat)
    (hnodup : (l.map Prod.fst).Nodup) (kv : Nat × Element)
    (hfind : List.find? (fun kv => kv.1 == h) l = some kv) :
    List.find? (fun kv => kv.1 == h) (eraseKeyFirst l h) = none := by
  induction l with
  | nil => simp [List.find?] at hfind
  | cons a rest ih =>
    rw [List.map_cons, List.nodup_cons] at hnodup
    by_cases ha : (a.1 == h) = true
    · have hah : a.1 = h := by simpa using ha
      simp only [eraseKeyFirst, ha, if_pos]
      apply List.find?_eq_none.mpr
      intro x hx
      intro hxh
      have hxh' : x.1 = h := by simpa using hxh
      exact hnodup.1 (by
        rw [hah, ← hxh']
        exact List.mem_map_of_mem Prod.fst hx)
    · have ha2 : (a.1 == h) = false := by
        cases hkk : (a.1 == h) with
        | true => exact absurd hkk ha
        | false => rfl
      rw [List.find?_cons, ha2] at hfind
      simp [eraseKeyFirst, ha2, List.find?_cons, ih hnodup.2 hfind]

theorem tupdate_length (c c' : UiCtx) (h : Nat) (f : Element → Element)
    (hup : tupdate c h f = some c') : c'.table.length = c.table.length := by
  simp only [tupdate] at hup
  cases hl : tlookup c h with
  | none => rw [hl] at hup; exact absurd hup (by simp)
  | some e =>
    rw [hl] at hup
    have : c' = ⟨updateKeyFirst c.table h f, c.next⟩ := by
      injection hup with h'
      exact h'.symm
    rw [this]
    exact length_updateKeyFirst c.table h f

theorem tdelete_length (c c1 : UiCtx) (h : Nat) (e : Element)
    (hdel : tdelete c h = some (c1, e)) :
    c1.table.length + 1 = c.table.length := by
  simp only [tdelete] at hdel
  cases hl : tlookup c h with
  | none => rw [hl] at hdel; exact absurd hdel (by simp)
  | some e' =>
    rw [hl] at hdel
    have hc1 : c1 = ⟨eraseKeyFirst c.table h, c.next⟩ := by
      injection hdel with h'
      have := congrArg Prod.fst h'
      exact this.symm
    obtain ⟨kv, hkv⟩ : ∃ kv, List.find? (fun kv => kv.1 == h) c.table = some kv := by
      simp only [tlookup] at hl
      cases hf : List.find? (fun kv => kv.1 == h) c.table with
      | none => rw [hf] at hl; exact absurd hl (by simp)
      | some kv => exact ⟨kv, rfl⟩
    rw [hc1]
    exact length_eraseKeyFirst c.table h kv hkv

theorem stepOp_length (c c1 : UiCtx) (op : UiOp)
    (hstep : stepOp c op = some c1) :
    c1.table.length + opConsume op = c.table.length + opAlloc op := by
  cases op with
  | newElem id t ct =>
    simp only [stepOp, elem_new, tpush] at hstep
    injection hstep with h'
    subst h'
    simp [opAlloc, opConsume]
  | setContent h ct =>
    simp only [stepOp, elem_content, Option.map_map] at hstep
    cases ht : tupdate c h (fun el => el.setContent ct) with
    | none => rw [ht] at hstep; exact absurd hstep (by simp)
    | some cu =>
      rw [ht] at hstep
      simp at hstep
      subst hstep
      simpa [opAlloc, opConsume] using tupdate_length c cu h _ ht
  | flex h =>
    simp only [stepOp, elem_flex, Option.map_map] at hstep
    cases ht : tupdate c h (fun el => el.withStyle "display" "flex") with
    | none => rw [ht] at hstep; exact absurd hstep (by simp)
    | some cu =>
      rw [ht] at hstep
      simp at hstep
      subst hstep
      simpa [opAlloc, opConsume] using tupdate_length c cu h _ ht
  | child p ch =>
    simp only [stepOp, elem_child] at hstep
    cases hd : tdelete c ch with
    | none => rw [hd] at hstep; exact absurd hstep (by simp)
    | some pr =>
      obtain ⟨cd, el⟩ := pr
      rw [hd] at hstep
      simp only [Option.map_map] at hstep
      cases ht : tupdate cd p (fun e => e.appendChild el) with
      | none => rw [ht] at hstep; exact absurd hstep (by simp)
      | some cu =>
        rw [ht] at hstep
        simp at hstep
        subst hstep
        have h1 := tupdate_length cd cu p _ ht
        have h2 := tdelete_length c cd ch el hd
        simp only [opAlloc, opConsume]
        omega
  | render h =>
    simp only [stepOp, ui_render] at hstep
    cases hd : tdelete c h with
    | none => rw [hd] at hstep; exact absurd hstep (by simp)
    | some pr =>
      obtain ⟨cd, el⟩ := pr
      rw [hd] at hstep
      simp at hstep
      subst hstep
      simpa [opAlloc, opConsume] using tdelete_length c cd h el hd
  | dropHandle h =>
    simp only [stepOp, elem_drop] at hstep
    cases hd : tdelete c h with
    | none => rw [hd] at hstep; exact absurd hstep (by simp)
    | some pr =>
      obtain ⟨cd, el⟩ := pr
      rw [hd] at hstep
      simp at hstep
      subst hstep
      simpa [opAlloc, opConsume] using tdelete_length c cd h el hd

theorem runOps_balance (ops : List UiOp) : ∀ (c c' : UiCtx),
    runOps c ops = some c' →
    c'.table.length + consumes ops = c.table.length + allocs ops := by
  induction ops with
  | nil =>
    intro c c' h
    simp only [runOps] at h
    injection h with h
    subst h
    simp [allocs, consumes]
  | cons op rest ih =>
    intro c c' hrun
    simp only [runOps] at hrun
    cases hstep : stepOp c op with
    | none => rw [hstep] at hrun; exact absurd hrun (by simp)
    | some c1 =>
      rw [hstep] at hrun
      have hbal := ih c1 c' hrun
      have hlen := stepOp_length c c1 op hstep
      simp only [allocs, consumes] at hbal hlen ⊢
      omega

theorem tupdate_spec (c c' : UiCtx) (h : Nat) (f : Element → Element)
    (hup : tupdate c h f = some c') :
    c'.next = c.next ∧ c'.table.length = c.table.length ∧
    tlookup c' h = (tlookup c h).map f ∧
    (∀ g : Nat, g ≠ h → tlookup c' g = tlookup c g) := by
  simp only [tupdate] at hup
  cases hl : tlookup c h with
  | none => rw [hl] at hup; exact absurd hup (by simp)
  | some e =>
    rw [hl] at hup
    simp at hup
    subst hup
    refine ⟨rfl, length_updateKeyFirst c.table h f, ?_, ?_⟩
    · simp only [tlookup] at hl
      cases hf : List.find? (fun kv => kv.1 == h) c.table with
      | none => rw [hf] at hl; exact absurd hl (by simp)
      | some kv =>
        rw [hf] at hl
        simp at hl
        simp [tlookup, find?_updateKeyFirst_self, hf, hl]
    · intro g hg
      simp [tlookup, find?_updateKeyFirst_other c.table g h f hg]

/-- C8: the UI resource table is balanced for owned handles. Element
creation allocates exactly one table entry, composing a child into a
parent removes the child's entry, rendering removes the rendered entry,
dropping an owned handle removes exactly one entry — and a second release
of the same handle fails instead of removing another entry. Consequently
a successful builder sequence starting from the empty table whose
releases (compositions, renders, drops) balance its allocations — in
particular one that builds a tree of N elements and renders the root —
leaves the table empty. -/
theorem ui_table_balanced :
    (∀ (ops : List UiOp) (c c' : UiCtx), runOps c ops = some c' →
      c'.table.length + consumes ops = c.table.length + allocs ops) ∧
    (∀ (ops : List UiOp) (c' : UiCtx), runOps UiCtx.empty ops = some c' →
      consumes ops = allocs ops → c'.table = []) ∧
    (∀ (c : UiCtx) (id : String) (t : ElementType) (ct : Option String),
      ((elem_new c id t ct).1).table.length = c.table.length + 1) ∧
    (∀ (c c1 : UiCtx) (h : Nat) (e : Element), tdelete c h = some (c1, e) →
      c1.table.length + 1 = c.table.length) ∧
    (∀ (c c1 : UiCtx) (h : Nat) (e : Element),
      (c.table.map Prod.fst).Nodup → tdelete c h = some (c1, e) →
      tdelete c1 h = none) := by
  refine ⟨runOps_balance, ?_, ?_, tdelete_length, ?_⟩
  · intro ops c' hrun hbal
    have := runOps_balance ops UiCtx.empty c' hrun
    rw [hbal] at this
    have hlen : c'.table.length = 0 := by
      simp only [UiCtx.empty, List.length_nil] at this
      omega
    exact List.length_eq_zero.mp hlen
  · intro c id t ct
    simp [elem_new, tpush]
  · intro c c1 h e hnodup hdel
    simp only [tdelete] at hdel
    cases hl : tlookup c h with
    | none => rw [hl] at hdel; exact absurd hdel (by simp)
    | some e' =>
      rw [hl] at hdel
      obtain ⟨kv, hkv⟩ :
          ∃ kv, List.find? (fun kv => kv.1 == h) c.table = some kv := by
        simp only [tlookup] at hl
        cases hf : List.find? (fun kv => kv.1 == h) c.table with
        | none => rw [hf] at hl; exact absurd hl (by simp)
        | some kv => exact ⟨kv, rfl⟩
      have hc1 : c1 = ⟨eraseKeyFirst c.table h, c.next⟩ := by
        injection hdel with h'
        have := congrArg Prod.fst h'
        exact this.symm
      have hnone := find?_eraseKeyFirst_nodup c.table h hnodup kv hkv
      simp [tdelete, tlookup, hc1, hnone]

/-- C8 witness: building a two-element tree, composing the child into the
root and rendering the root leaves the table empty. -/
theorem ui_table_balanced_witness :
    runOps UiCtx.empty
      [UiOp.newElem "a" .div none, UiOp.newElem "b" .p none,
       UiOp.child 0 1, UiOp.render 0] = some ⟨[], 2⟩ ∧
    (UiCtx.mk [] 2).table = [] :=
  ⟨rfl,
   ui_table_balanced.2.1
     [UiOp.newElem "a" .div none, UiOp.newElem "b" .p none,
      UiOp.child 0 1, UiOp.render 0] ⟨[], 2⟩ rfl rfl⟩

/-- C9 counterexample: a mutator call does not clone the element into a
new table slot. `content` on the single element of a one-entry table
returns the same handle it was given, the table still has exactly one
entry, and the entry under the original handle now carries the new
content while it previously carried none — the original's table entry is
modified in place rather than preserved. -/
theorem borrowed_mutator_clones_cex :
    ((elem_content (UiCtx.mk [(0, Element.new "e1" ElementType.div none)] 1) 0
        (some "x")).map Prod.snd) = some 0 ∧
    ((elem_content (UiCtx.mk [(0, Element.new "e1" ElementType.div none)] 1) 0
        (some "x")).map (fun r => r.1.table.length)) = some 1 ∧
    ((elem_content (UiCtx.mk [(0, Element.new "e1" ElementType.div none)] 1) 0
        (some "x")).map (fun r => (tlookup r.1 0).map Element.content)) =
      some (some (some "x")) ∧
    (tlookup (UiCtx.mk [(0, Element.new "e1" ElementType.div none)] 1) 0).map
      Element.content = some none :=
  ⟨rfl, rfl, rfl, rfl⟩

/-- C9 amended: every element-handle mutator (content and the style
setters such as flex) mutates the element's table entry in place and
returns the handle it was given: no new table slot is created, the entry
under the handle is replaced by the mutated element, and all other table
entries are untouched. The implementation has no borrowed-mode clone. -/
theorem ui_mutators_in_place (c : UiCtx) (h : Nat) (content : Option String) :
    (∀ (c' : UiCtx) (h' : Nat), elem_content c h content = some (c', h') →
      h' = h ∧ c'.next = c.next ∧ c'.table.length = c.table.length ∧
      tlookup c' h = (tlookup c h).map (fun el => el.setContent content) ∧
      (∀ g : Nat, g ≠ h → tlookup c' g = tlookup c g)) ∧
    (∀ (c' : UiCtx) (h' : Nat), elem_flex c h = some (c', h') →
      h' = h ∧ c'.next = c.next ∧ c'.table.length = c.table.length ∧
      tlookup c' h = (tlookup c h).map (fun el => el.withStyle "display" "flex") ∧
      (∀ g : Nat, g ≠ h → tlookup c' g = tlookup c g)) := by
  constructor
  · intro c' h' hcall
    simp only [elem_content] at hcall
    cases ht : tupdate c h (fun el => el.setContent content) with
    | none => rw [ht] at hcall; exact absurd hcall (by simp)
    | some cu =>
      rw [ht] at hcall
      simp at hcall
      obtain ⟨hc, hh⟩ := hcall
      subst hc
      subst hh
      obtain ⟨h1, h2, h3, h4⟩ := tupdate_spec c cu h _ ht
      exact ⟨rfl, h1, h2, h3, h4⟩
  · intro c' h' hcall
    simp only [elem_flex] at hcall
    cases ht : tupdate c h (fun el => el.withStyle "display" "flex") with
    | none => rw [ht] at hcall; exact absurd hcall (by simp)
    | some cu =>
      rw [ht] at hcall
      simp at hcall
      obtain ⟨hc, hh⟩ := hcall
      subst hc
      subst hh
      obtain ⟨h1, h2, h3, h4⟩ := tupdate_spec c cu h _ ht
      exact ⟨rfl, h1, h2, h3, h4⟩

/-- C9 witness: the amended theorem applied to a concrete one-element
table, showing the entry under the original handle now holds the new
content. -/
theorem ui_mutators_in_place_witness :
    tlookup
      (UiCtx.mk [(0, Element.mk "e1" ElementType.div (some "y") [] [] none
        none none)] 1) 0 =
      (tlookup (UiCtx.mk [(0, Element.new "e1" ElementType.div none)] 1)
        0).map (fun el => el.setContent (some "y")) :=
  ((ui_mutators_in_place
      (UiCtx.mk [(0, Element.new "e1" ElementType.div none)] 1) 0
      (some "y")).1
    (UiCtx.mk [(0, Element.mk "e1" ElementType.div (some "y") [] [] none
      none none)] 1) 0 rfl).2.2.2.1

/-! ## Bulk-load characterization (C6) -/

def isBadDir : DirEntry → Bool
  | .bad _ _ => true
  | .good _ _ => false

/-- The error strings the `add` loop of `load_from_dir` collects: one per
directory whose manifest fails to load, in directory order. -/
def badErrors : List DirEntry → List String
  | [] => []
  | .bad label err :: rest => loadErrMsg label err :: badErrors rest
  | .good _ _ :: rest => badErrors rest

/-- The plugin-map effect of the `add` loop of `load_from_dir`. -/
def addMap (m : PluginMap) : List DirEntry → PluginMap
  | [] => m
  | .bad _ _ :: rest => addMap m rest
  | .good name run_ok :: rest => addMap (m.add name run_ok) rest

/-- The error `start_plugin` produces on the map `m` for the name `n`, if
any: a missing name reports not-found, a disabled, already-loaded or
successfully running plugin reports nothing, a failing run reports the
on-load failure. -/
def startMsg (m : PluginMap) (n : String) : Option String :=
  match m.lookup n with
  | none => some ("Plugin '" ++ n ++ "' not found")
  | some p =>
    if p.state.disabled then none
    else if p.state.loaded then none
    else if p.run_ok then none
    else some ("plugin '" ++ n ++ "' on_load failed. detail: trap")

theorem addAll_general (dirs : List DirEntry) : ∀ (m : PluginMap) (errs : List String),
    dirs.foldl
      (fun acc d =>
        match d with
        | .bad label err => (acc.1, acc.2 ++ [loadErrMsg label err])
        | .good name run_ok => (acc.1.add name run_ok, acc.2))
      (m, errs)
    = (addMap m dirs, errs ++ badErrors dirs) := by
  induction dirs with
  | nil => intro m errs; simp [addMap, badErrors]
  | cons d rest ih =>
    intro m errs
    cases d with
    | bad label err => simp [List.foldl_cons, addMap, badErrors, ih]
    | good n r => simp [List.foldl_cons, addMap, badErrors, ih]

theorem addAll_spec (dirs : List DirEntry) (m : PluginMap) :
    addAll m dirs = (addMap m dirs, badErrors dirs) := by
  simpa [addAll] using addAll_general dirs m []

theorem badErrors_length : ∀ dirs : List DirEntry,
    (badErrors dirs).length = dirs.countP isBadDir := by
  intro dirs
  induction dirs with
  | nil => rfl
  | cons d rest ih =>
    cases d with
    | bad label err => simp [badErrors, List.countP_cons, isBadDir, ih]
    | good n r => simp [badErrors, List.countP_cons, isBadDir, ih]

theorem addMap_ignores_bad : ∀ (dirs : List DirEntry) (m : PluginMap),
    addMap m dirs = addMap m (dirs.filter (fun d => !(isBadDir d))) := by
  intro dirs
  induction dirs with
  | nil => intro m; rfl
  | cons d rest ih =>
    intro m
    cases d with
    | bad label err => simp [addMap, List.filter_cons, isBadDir, ih]
    | good n r => simp [addMap, List.filter_cons, isBadDir, ih]

theorem startMsg_congr (m m' : PluginMap) (n : String)
    (h : m'.lookup n = m.lookup n) : startMsg m' n = startMsg m n := by
  simp only [startMsg, h]

theorem start_plugin_snd (m : PluginMap) (n : String) :
    (m.start_plugin n).2 = (match startMsg m n with
                            | none => Except.ok ()
                            | some e => Except.error e) := by
  simp only [PluginMap.start_plugin, startMsg]
  cases m.lookup n with
  | none => rfl
  | some p =>
    by_cases hd : p.state.disabled
    · simp [hd]
    · by_cases hl : p.state.loaded
      · simp [hd, hl]
      · by_cases hr : p.run_ok
        · simp [hd, hl, hr]
        · simp [hd, hl, hr]

theorem start_plugin_lookup_other (m : PluginMap) (n n' : String)
    (hne : n' ≠ n) : ((m.start_plugin n).1).lookup n' = m.lookup n' := by
  simp only [PluginMap.start_plugin]
  cases m.lookup n with
  | none => rfl
  | some p =>
    by_cases hd : p.state.disabled
    · simp [hd]
    · by_cases hl : p.state.loaded
      · simp [hd, hl]
      · by_cases hr : p.run_ok
        · simp [hd, hl, hr, PluginMap.lookup_insert_other m n n' _ hne]
        · simp [hd, hl, hr, PluginMap.lookup_erase_other m n n' hne]

theorem filterMap_congr_mem {α β : Type} (f g : α → Option β) :
    ∀ l : List α, (∀ x ∈ l, f x = g x) → l.filterMap f = l.filterMap g := by
  intro l
  induction l with
  | nil => intro _; rfl
  | cons a rest ih =>
    intro h
    simp only [List.filterMap_cons, h a (List.mem_cons_self a rest),
      ih (fun x hx => h x (List.mem_cons_of_mem a hx))]

theorem startFold_errs (names : List String) : ∀ (m : PluginMap) (errs : List String),
    names.Nodup →
    (names.foldl
      (fun acc n =>
        match acc.1.start_plugin n with
        | (m', .ok _) => (m', acc.2)
        | (m', .error e) => (m', acc.2 ++ [e]))
      (m, errs)).2
    = errs ++ names.filterMap (startMsg m) := by
  induction names with
  | nil => intro m errs _; simp
  | cons n rest ih =>
    intro m errs hnodup
    rw [List.nodup_cons] at hnodup
    obtain ⟨hnin, hrest⟩ := hnodup
    rw [List.foldl_cons]
    cases hsp : m.start_plugin n with
    | mk m' r =>
      have hsnd := start_plugin_snd m n
      rw [hsp] at hsnd
      have hcongr : ∀ x ∈ rest, startMsg m' x = startMsg m x := by
        intro x hx
        apply startMsg_congr
        have hxn : x ≠ n := fun hxe => hnin (hxe ▸ hx)
        have hlk := start_plugin_lookup_other m n x hxn
        rw [hsp] at hlk
        exact hlk
      cases r with
      | ok u =>
        have hmsg : startMsg m n = none := by
          cases hm : startMsg m n with
          | none => rfl
          | some e => rw [hm] at hsnd; exact absurd hsnd (by simp)
        simp only [hsp]
        rw [ih m' errs hrest, filterMap_congr_mem _ _ rest hcongr]
        simp [List.filterMap_cons, hmsg]
      | error e =>
        have hmsg : startMsg m n = some e := by
          cases hm : startMsg m n with
          | none => rw [hm] at hsnd; exact absurd hsnd (by simp)
          | some e' =>
            rw [hm] at hsnd
            injection hsnd with he
            exact congrArg some he.symm
        simp only [hsp]
        rw [ih m' (errs ++ [e]) hrest, filterMap_congr_mem _ _ rest hcongr]
        simp [List.filterMap_cons, hmsg]

theorem startFold_spec (m : PluginMap) (names : List String)
    (h : names.Nodup) :
    (m.startFold names).2 = names.filterMap (startMsg m) := by
  simpa [PluginMap.startFold] using startFold_errs names m [] h

theorem sortNames_sorted (l : List String) :
    List.Sorted (fun a b => a ≤ b) (sortNames l) :=
  List.sorted_insertionSort _ l

theorem sortNames_perm (l : List String) : (sortNames l).Perm l :=
  List.perm_insertionSort _ l

/-- C6: `load_from_dir` has partial-failure semantics: the returned error
list is the add-phase errors — exactly one error string per directory
whose manifest fails to load, with the bad directories not affecting the
map of successfully added plugins — followed by the start-phase errors;
the start phase processes the plugin names in deterministic sorted order
(the started list is sorted and is a permutation of the map's keys), and
contributes exactly the per-name start failures, in that sorted order. -/
theorem load_from_dir_partial_failure (dirs : List DirEntry)
    (dm : String → Bool) (m0 : PluginMap) :
    ((load_from_dir m0 dirs dm).2 =
      badErrors dirs ++ (applyDisabled dm (addMap m0 dirs)).start_all.2) ∧
    (badErrors dirs).length = dirs.countP isBadDir ∧
    addMap m0 dirs = addMap m0 (dirs.filter (fun d => !(isBadDir d))) ∧
    (∀ m : PluginMap, List.Sorted (fun a b => a ≤ b) (sortNames m.keys) ∧
      (sortNames m.keys).Perm m.keys) ∧
    (∀ m : PluginMap, m.keys.Nodup →
      m.start_all.2 = (sortNames m.keys).filterMap (startMsg m)) := by
  refine ⟨?_, badErrors_length dirs, addMap_ignores_bad dirs m0, ?_, ?_⟩
  · have h1 := addAll_spec dirs m0
    simp only [load_from_dir, h1]
  · intro m
    exact ⟨sortNames_sorted _, sortNames_perm _⟩
  · intro m hnodup
    have hsortnodup : (sortNames m.keys).Nodup :=
      ((sortNames_perm m.keys).nodup_iff).mpr hnodup
    exact startFold_spec m (sortNames m.keys) hsortnodup

/-- Three plugin directories, one with a corrupt manifest, one whose
plugin later fails to start. -/
def demoDirs : List DirEntry :=
  [.good "b" true, .bad "x" "boom", .good "a" false]

def demoMap : PluginMap := applyDisabled (fun _ => false) (addMap [] demoDirs)

/-- C6 witness: the theorem applied to the three concrete directories,
with the key-uniqueness hypothesis discharged by evaluation. -/
theorem load_from_dir_partial_failure_witness :
    (load_from_dir [] demoDirs (fun _ => false)).2 =
      badErrors demoDirs ++ demoMap.start_all.2 ∧
    demoMap.start_all.2 =
      (sortNames demoMap.keys).filterMap (startMsg demoMap) :=
  ⟨(load_from_dir_partial_failure demoDirs (fun _ => false) []).1,
   (load_from_dir_partial_failure demoDirs (fun _ => false) []).2.2.2.2
     demoMap (by decide)⟩

end PS
